import Mathlib

/-!
Shallow embedding of the instance-discovery pipeline of
`src/libmultimc/src/instancelist.cpp` (PrisonLauncher / MultiMC 2013) together
with the enums of `src/libmultimc/include/instanceloader.h`.

Modelling conventions:
* `QJsonValue` becomes the inductive `JValue`; JSON numbers are kept as `Int`
  (the group file only ever uses small integers).  Qt's `Undefined` value
  (returned by `QJsonObject::value` on a missing key) and `Null` behave the
  same way in every operation this file uses (`isObject`, `isArray`,
  `toString`, `toVariant().toInt()`), so both are folded into `JValue.jnull`.
* A `QJsonObject` materialised by the parser stores its entries sorted by key
  with duplicate keys collapsed (the later occurrence wins); iteration walks
  the sorted entries.  `objOf` turns the textual (file-order) entry list into
  that sorted form.
* `QMap<QString, QString>` is a key-sorted association list; `mapInsert`
  models `map[key] = value` (insert or overwrite), `mapLookup` models
  `map.find`.
* `QJsonValue::toString()` yields the null `QString` on a non-string value;
  the null QString is modelled as `""`.
* Qt logging (`qDebug` / `qWarning`) is modelled as a list of `LogEvent`
  values, one constructor per distinct message of the source file; the
  constructor prefix records the level the source uses.
* Filesystem reads are inputs: the state of the group file is a `GroupFile`,
  the directory walk of `loadList` is a list of `Candidate` records (one per
  entry produced by the `QDirIterator`, carrying whether `instance.cfg`
  exists and what `InstanceLoader::loadInstance` would return for it).
* `InstancePtr` (`QSharedPointer<Instance>`) becomes `Option Instance`;
  dereferencing a null pointer has no defined result, which
  `InstanceList.getInstanceById` surfaces as an outer `none`.
-/

/-- A Qt JSON value (`QJsonValue`).  `jnull` stands for both JSON null and
Qt's Undefined, which are indistinguishable for every operation used by
`instancelist.cpp`. -/
inductive JValue where
  | jnull : JValue
  | jbool : Bool → JValue
  | jnum : Int → JValue
  | jstr : String → JValue
  | jarr : List JValue → JValue
  | jobj : List (String × JValue) → JValue

/-- `QJsonValue::isObject()`. -/
def isJObj : JValue → Bool
  | JValue.jobj _ => true
  | _ => false

/-- `QJsonValue::isArray()`. -/
def isJArr : JValue → Bool
  | JValue.jarr _ => true
  | _ => false

/-- `QJsonValue::isString()`. -/
def isJStr : JValue → Bool
  | JValue.jstr _ => true
  | _ => false

/-- `QJsonValue::toString()`: the string value, or the null `QString`
(modelled as `""`) for every non-string value. -/
def jvalToString : JValue → String
  | JValue.jstr s => s
  | _ => ""

/-- `QJsonValue::toVariant().toInt()`: numbers convert to their integral
value, strings parse like `QString::toInt` (0 on failure), booleans convert
to 0/1, everything else to 0. -/
def toVariantInt : JValue → Int
  | JValue.jnum n => n
  | JValue.jstr s => (s.toInt?).getD 0
  | JValue.jbool b => if b then 1 else 0
  | _ => 0

/-- Code-unit-wise lexicographic comparison of character lists, the order
`QString::operator<` uses for the sorted keys of `QJsonObject` and `QMap`. -/
def charListLt : List Char → List Char → Bool
  | _, [] => false
  | [], _ :: _ => true
  | c :: cs, d :: ds =>
    if c.toNat < d.toNat then true
    else if d.toNat < c.toNat then false
    else charListLt cs ds

/-- `QString::operator<` (lexicographic by code unit). -/
def strLt (a b : String) : Bool :=
  charListLt a.data b.data

/-- Insertion into the sorted entry list of a `QJsonObject`: keeps keys in
ascending order, an existing key is overwritten. -/
def objInsert (es : List (String × JValue)) (k : String) (v : JValue) :
    List (String × JValue) :=
  match es with
  | [] => [(k, v)]
  | (a, b) :: rest =>
    if strLt k a then (k, v) :: (a, b) :: rest
    else if k = a then (k, v) :: rest
    else (a, b) :: objInsert rest k v

/-- The `QJsonObject` obtained from a textual JSON object whose entries
appear in `es` in file order: entries are inserted one by one, so iteration
order is sorted by key and a duplicated key keeps its last value. -/
def objOf (es : List (String × JValue)) : List (String × JValue) :=
  es.foldl (fun acc kv => objInsert acc kv.1 kv.2) []

/-- `QJsonObject::value(key)`: the value stored under `key`, or
Undefined (modelled as `jnull`) when the key is absent. -/
def objValue (es : List (String × JValue)) (k : String) : JValue :=
  match es with
  | [] => JValue.jnull
  | (a, b) :: rest => if k = a then b else objValue rest k

/-- `QMap<QString, QString>::operator[] = `: sorted insert-or-overwrite. -/
def mapInsert (m : List (String × String)) (k v : String) :
    List (String × String) :=
  match m with
  | [] => [(k, v)]
  | (a, b) :: rest =>
    if strLt k a then (k, v) :: (a, b) :: rest
    else if k = a then (k, v) :: rest
    else (a, b) :: mapInsert rest k v

/-- `QMap<QString, QString>::find` (as an `Option`). -/
def mapLookup (m : List (String × String)) (k : String) : Option String :=
  match m with
  | [] => none
  | (a, b) :: rest => if k = a then some b else mapLookup rest k

/-- The value attached to the last pair of `l` whose key is `k`
("last write wins" along the processing order `l`). -/
def lastAssoc (l : List (String × String)) (k : String) : Option String :=
  match l with
  | [] => none
  | p :: rest =>
    match lastAssoc rest k with
    | some g => some g
    | none => if k = p.1 then some p.2 else none

/-- One constructor per log statement of `instancelist.cpp`; the prefix
(`debug`/`warn`) records whether the source uses `qDebug` or `qWarning`. -/
inductive LogEvent where
  /-- line 54: `qDebug("Failed to read instance group file.")`. -/
  | debugReadFail : LogEvent
  /-- line 68: parse-error warning with position. -/
  | warnParseFail : LogEvent
  /-- line 76: `"Invalid group file. Root entry should be an object."`. -/
  | warnRootNotObject : LogEvent
  /-- line 89: `"Invalid group list JSON: 'groups' should be an object."`. -/
  | warnGroupsNotObject : LogEvent
  /-- line 102: group value is not an object. -/
  | warnGroupNotObject : String → LogEvent
  /-- line 110: group object has no `instances` array. -/
  | warnGroupNoInstances : String → LogEvent
  /-- lines 157-167: `"Failed to load instance <base>: Unknown instance
  loader error <n>"` (emitted through `qDebug`). -/
  | debugFailedToLoad : String → LogEvent
  /-- line 171: `"Error loading instance <base>. Instance loader returned
  null."` (emitted through `qDebug`). -/
  | debugLoaderNull : String → LogEvent
  /-- line 182: `"Loaded instance <name>"`. -/
  | debugLoaded : String → LogEvent
deriving DecidableEq

/-- Observable state of `instances/instgroups.json` when `loadGroupList`
runs: missing, unopenable, unparseable, or parsed to a root `JValue`. -/
inductive GroupFile where
  | absent : GroupFile
  | unreadable : GroupFile
  | badJson : GroupFile
  | parsed : JValue → GroupFile

/-- Body of the per-group loop of `InstanceList::loadGroupList`
(lines 95-124): a group whose value is not an object, or whose object has no
`instances` array, is skipped with a warning; otherwise every element of the
`instances` array is written into the map under `toString()` of the element. -/
def groupStep (acc : List (String × String) × List LogEvent)
    (kv : String × JValue) : List (String × String) × List LogEvent :=
  match kv.2 with
  | JValue.jobj ge =>
    match objValue (objOf ge) "instances" with
    | JValue.jarr instancesArray =>
      (instancesArray.foldl (fun gm v => mapInsert gm (jvalToString v) kv.1) acc.1,
       acc.2)
    | _ => (acc.1, acc.2 ++ [LogEvent.warnGroupNoInstances kv.1])
  | _ => (acc.1, acc.2 ++ [LogEvent.warnGroupNotObject kv.1])

namespace InstanceList

/-- `InstanceList::loadGroupList(QMap &groupMap)` (lines 40-125).  The map is
passed in by reference and returned together with the log; every early
`return` of the source leaves the caller's map untouched. -/
def loadGroupList (file : GroupFile) (groupMap : List (String × String)) :
    List (String × String) × List LogEvent :=
  match file with
  | GroupFile.absent => (groupMap, [])
  | GroupFile.unreadable => (groupMap, [LogEvent.debugReadFail])
  | GroupFile.badJson => (groupMap, [LogEvent.warnParseFail])
  | GroupFile.parsed root =>
    match root with
    | JValue.jobj entries =>
      let rootObj := objOf entries
      if toVariantInt (objValue rootObj "formatVersion") ≠ 1 then
        (groupMap, [])
      else
        match objValue rootObj "groups" with
        | JValue.jobj gentries => (objOf gentries).foldl groupStep (groupMap, [])
        | _ => (groupMap, [LogEvent.warnGroupsNotObject])
    | _ => (groupMap, [LogEvent.warnRootNotObject])

end InstanceList

/-- The fields of an `Instance` that `instancelist.cpp` reads or writes:
`id()`, `name()` and the group set through `setGroup`. -/
structure Instance where
  id : String
  name : String
  group : String
deriving DecidableEq

namespace InstanceLoader

/-- `InstanceLoader::InstLoadError` (instanceloader.h lines 39-44). -/
inductive InstLoadError where
  | NoLoadError : InstLoadError
  | UnknownLoadError : InstLoadError
  | NotAnInstance : InstLoadError
deriving DecidableEq

end InstanceLoader

/-- One entry produced by the `QDirIterator` over the instance root
(lines 134-138): the entry's path, whether `<dir>/instance.cfg` exists
(line 139), and the pair `(error, instPtr)` that
`InstanceLoader::loadInstance(instPtr, subDir)` would leave behind for it
(line 144; `instPtr` starts out `NULL` at line 142, so `none` models a
loader that did not store an instance). -/
structure Candidate where
  dir : String
  hasMarker : Bool
  loadResult : InstanceLoader.InstLoadError × Option Instance
deriving DecidableEq

/-- `QFileInfo::baseName()`: the file-name portion of the path (after the
last `/`) up to, but not including, the first `.`. -/
def baseName (path : String) : String :=
  let fileName := (path.splitOn "/").foldl (fun _ s => s) ""
  (fileName.splitOn ".").headD ""

/-- `groupMap.find(inst->id())` followed by `inst->setGroup(*iter)` when the
identifier is present (lines 177-181). -/
def applyGroup (gm : List (String × String)) (i : Instance) : Instance :=
  match mapLookup gm i.id with
  | some g => { i with group := g }
  | none => i

/-- Accumulator of the scan loop of `loadList`: the instances appended so
far, the log so far, and the directories the loader has been invoked on. -/
structure LoadAcc where
  insts : List Instance
  logs : List LogEvent
  invoked : List String
deriving DecidableEq

/-- One iteration of the `while (iter.hasNext())` loop of
`InstanceList::loadList` (lines 136-187).  A candidate without
`instance.cfg` is skipped before the loader is invoked (lines 139-140).
Otherwise the loader runs (line 144; the `switch` at lines 146-152 has no
effect) and the outcome is classified exactly as lines 154-186 do:
an error other than `NoLoadError`/`NotAnInstance` is logged (via `qDebug`)
with the directory's base name; otherwise a null `instPtr` is logged with
the "returned null" message; otherwise the instance gets its group applied
and is appended. -/
def loadStep (groupMap : List (String × String)) (acc : LoadAcc)
    (c : Candidate) : LoadAcc :=
  if c.hasMarker = false then acc
  else
    let acc1 : LoadAcc := { acc with invoked := acc.invoked ++ [c.dir] }
    let error := c.loadResult.1
    if error ≠ InstanceLoader.InstLoadError.NoLoadError ∧
        error ≠ InstanceLoader.InstLoadError.NotAnInstance then
      { acc1 with logs := acc1.logs ++ [LogEvent.debugFailedToLoad (baseName c.dir)] }
    else
      match c.loadResult.2 with
      | none =>
        { acc1 with logs := acc1.logs ++ [LogEvent.debugLoaderNull (baseName c.dir)] }
      | some inst0 =>
        let inst := applyGroup groupMap inst0
        { acc1 with
          insts := acc1.insts ++ [inst],
          logs := acc1.logs ++ [LogEvent.debugLoaded inst.name] }

/-- The state of an `InstanceList` object: `m_instDir` and `m_instances`. -/
structure InstanceList where
  m_instDir : String
  m_instances : List Instance
deriving DecidableEq

/-- Events emitted through the Qt signals of `InstanceList`. -/
inductive Event where
  /-- `invalidated()`. -/
  | invalidated : Event
  /-- `instanceAdded(int)`. -/
  | instanceAdded : Nat → Event
  /-- `instanceChanged(int)`. -/
  | instanceChanged : Nat → Event
deriving DecidableEq

/-- Everything observable about one `loadList` call: the object state after
the call, the log, the emitted signals, and the directories
`InstanceLoader::loadInstance` was invoked on. -/
structure LoadListResult where
  state : InstanceList
  logs : List LogEvent
  events : List Event
  invoked : List String
deriving DecidableEq

namespace InstanceList

/-- `InstanceList::InstanceList(const QString &instDir, QObject *parent)`
(lines 34-38): the `instDir` argument is ignored; `m_instDir` is initialised
to the literal `"instances"` and the instance list starts empty. -/
def construct (instDir : String) : InstanceList :=
  { m_instDir := "instances", m_instances := [] }

/-- `InstanceList::loadList()` (lines 127-190) with the environment made
explicit: `file` is the state of the group file and `cs` the entries the
`QDirIterator` yields.  The group map is built first (lines 130-131), then
`m_instances` is cleared (line 133) and every candidate is processed by
`loadStep`; one `invalidated()` signal is emitted at the end (line 188). -/
def loadList (file : GroupFile) (cs : List Candidate) (s : InstanceList) :
    LoadListResult :=
  let gl := loadGroupList file []
  let acc := cs.foldl (loadStep gl.1) { insts := [], logs := gl.2, invoked := [] }
  { state := { s with m_instances := acc.insts },
    logs := acc.logs,
    events := [Event.invalidated],
    invoked := acc.invoked }

/-- `InstanceList::add(InstancePtr t)` (lines 199-205): append, emit
`instanceAdded(count() - 1)`, return `count() - 1`. -/
def add (s : InstanceList) (t : Instance) : InstanceList × List Event × Nat :=
  let s1 : InstanceList := { s with m_instances := s.m_instances ++ [t] }
  (s1, [Event.instanceAdded (s1.m_instances.length - 1)],
   s1.m_instances.length - 1)

/-- `InstanceList::clear()` (lines 192-197). -/
def clear (s : InstanceList) : InstanceList × List Event :=
  ({ s with m_instances := [] }, [Event.invalidated])

/-- The loop of `InstanceList::getInstanceById` (lines 209-216): `inst`
starts as a null `InstancePtr` (`none`) and is overwritten with each element
until one matches; the loop breaks on the first match. -/
def getByIdScan (instId : String) (inst : Option Instance) :
    List Instance → Option Instance
  | [] => inst
  | i :: rest =>
    if i.id = instId then some i else getByIdScan instId (some i) rest

/-- `InstanceList::getInstanceById(QString instId)` (lines 207-221).  After
the loop the source evaluates `inst->id()`; when the collection is empty,
`inst` is still a default-constructed (null) `InstancePtr` and that
dereference has no defined result — modelled as the outer `none`.  Otherwise
`some none` models returning the null `InstancePtr()` ("not found") and
`some (some i)` models returning `iter.peekPrevious()`, which is the
element the loop stopped on. -/
def getInstanceById (s : InstanceList) (instId : String) :
    Option (Option Instance) :=
  match getByIdScan instId none s.m_instances with
  | none => none
  | some inst =>
    if inst.id ≠ instId then some none else some (some inst)

/-- The group-file path computed at line 42: `m_instDir + "/instgroups.json"`. -/
def groupFileName (s : InstanceList) : String :=
  s.m_instDir ++ "/instgroups.json"

/-- `loadGroupList` as the member function actually runs: the file that gets
read is the one the filesystem `fs` holds at `groupFileName`. -/
def loadGroupListFS (fs : String → GroupFile) (s : InstanceList)
    (groupMap : List (String × String)) :
    List (String × String) × List LogEvent :=
  loadGroupList (fs (groupFileName s)) groupMap

/-- `loadList` as the member function actually runs: the group file comes
from the filesystem `fs` and the candidates from listing `m_instDir`. -/
def loadListFS (fs : String → GroupFile)
    (listing : String → List Candidate) (s : InstanceList) : LoadListResult :=
  loadList (fs (groupFileName s)) (listing s.m_instDir) s

end InstanceList

/-! ### Specification-side helper definitions

These describe, independently of the fold that implements them, what the
parsing and scanning loops produce; the theorems below connect them to the
embedded source functions. -/

/-- A group file whose root object declares `formatVersion 1` and the given
`groups` object, entries listed in file order. -/
def mkGroupFile (gs : List (String × JValue)) : JValue :=
  JValue.jobj [("formatVersion", JValue.jnum 1), ("groups", JValue.jobj gs)]

/-- The `(instanceId, groupName)` pairs one group entry contributes, in the
order the inner loop of `loadGroupList` writes them: nothing for a malformed
group, `(toString(elem), groupName)` per array element otherwise. -/
def pairsOf (kv : String × JValue) : List (String × String) :=
  match kv.2 with
  | JValue.jobj ge =>
    match objValue (objOf ge) "instances" with
    | JValue.jarr arr => arr.map (fun v => (jvalToString v, kv.1))
    | _ => []
  | _ => []

/-- The pairs a whole groups object contributes, groups in the order given. -/
def groupPairs : List (String × JValue) → List (String × String)
  | [] => []
  | kv :: rest => pairsOf kv ++ groupPairs rest

/-- The warnings the per-group loop emits, groups in the order given. -/
def groupWarnings : List (String × JValue) → List LogEvent
  | [] => []
  | kv :: rest =>
    (match kv.2 with
     | JValue.jobj ge =>
       match objValue (objOf ge) "instances" with
       | JValue.jarr _ => []
       | _ => [LogEvent.warnGroupNoInstances kv.1]
     | _ => [LogEvent.warnGroupNotObject kv.1]) ++ groupWarnings rest

/-- A group value is well formed when it is an object holding an
`instances` array. -/
def wellFormedGroup (v : JValue) : Bool :=
  match v with
  | JValue.jobj ge => isJArr (objValue (objOf ge) "instances")
  | _ => false

/-- The instances the scan loop appends, one sublist per candidate: nothing
for a candidate without the marker file or with a null loader result or an
`UnknownLoadError`, and the group-adjusted instance when the loader stored
one under `NoLoadError` or `NotAnInstance`. -/
def scannedInstances (gm : List (String × String)) : List Candidate → List Instance
  | [] => []
  | c :: rest =>
    (if c.hasMarker then
      match c.loadResult with
      | (InstanceLoader.InstLoadError.UnknownLoadError, _) => []
      | (_, none) => []
      | (_, some i) => [applyGroup gm i]
     else []) ++ scannedInstances gm rest

/-- The instances of the candidates the loader classified `Ok`
(`NoLoadError`) with a non-null result, group-adjusted, in scan order. -/
def acceptedInstances (gm : List (String × String)) : List Candidate → List Instance
  | [] => []
  | c :: rest =>
    (if c.hasMarker then
      match c.loadResult with
      | (InstanceLoader.InstLoadError.NoLoadError, some i) => [applyGroup gm i]
      | _ => []
     else []) ++ acceptedInstances gm rest

/-- Whether the loader accepted the candidate: outcome `NoLoadError`
together with a stored instance. -/
def acceptedCandidate (c : Candidate) : Bool :=
  match c.loadResult with
  | (InstanceLoader.InstLoadError.NoLoadError, some _) => true
  | _ => false

/-! ### Association-list and fold lemmas -/

theorem mapLookup_mapInsert (m : List (String × String)) (k v k' : String) :
    mapLookup (mapInsert m k v) k' =
      if k' = k then some v else mapLookup m k' := by
  induction m with
  | nil => simp [mapInsert, mapLookup]
  | cons p rest ih =>
    obtain ⟨a, b⟩ := p
    by_cases h1 : strLt k a = true
    · simp [mapInsert, h1, mapLookup]
    · by_cases h2 : k = a
      · subst h2
        by_cases h3 : k' = k <;> simp [mapInsert, h1, mapLookup, h3]
      · by_cases h3 : k' = a
        · subst h3
          have hk : ¬ k' = k := fun e => h2 e.symm
          simp [mapInsert, h1, h2, mapLookup, hk]
        · simp [mapInsert, h1, h2, mapLookup, h3, ih]

theorem mapLookup_foldl_insert (ps : List (String × String))
    (m : List (String × String)) (k : String) :
    mapLookup (ps.foldl (fun gm p => mapInsert gm p.1 p.2) m) k =
      match lastAssoc ps k with
      | some g => some g
      | none => mapLookup m k := by
  induction ps generalizing m with
  | nil => simp [lastAssoc]
  | cons p rest ih =>
    simp only [List.foldl_cons, lastAssoc, ih (mapInsert m p.1 p.2)]
    cases lastAssoc rest k with
    | some g => rfl
    | none =>
      rw [mapLookup_mapInsert]
      by_cases h : k = p.1 <;> simp [h]

theorem foldl_mapInsert_map (arr : List JValue) (g : String)
    (gm : List (String × String)) :
    arr.foldl (fun gm v => mapInsert gm (jvalToString v) g) gm =
      (arr.map (fun v => (jvalToString v, g))).foldl
        (fun gm p => mapInsert gm p.1 p.2) gm := by
  induction arr generalizing gm with
  | nil => rfl
  | cons v rest ih => simp [ih]

theorem groupFold_fst (gs : List (String × JValue))
    (gm : List (String × String)) (l : List LogEvent) :
    (gs.foldl groupStep (gm, l)).1 =
      (groupPairs gs).foldl (fun gm p => mapInsert gm p.1 p.2) gm := by
  induction gs generalizing gm l with
  | nil => simp [groupPairs]
  | cons kv rest ih =>
    obtain ⟨g, v⟩ := kv
    cases v with
    | jobj ge =>
      cases h : objValue (objOf ge) "instances" with
      | jarr arr =>
        simp only [List.foldl_cons, groupStep, h, groupPairs, pairsOf,
          List.foldl_append, ih, foldl_mapInsert_map]
      | jnull => simp [groupStep, h, groupPairs, pairsOf, ih]
      | jbool b => simp [groupStep, h, groupPairs, pairsOf, ih]
      | jnum n => simp [groupStep, h, groupPairs, pairsOf, ih]
      | jstr s => simp [groupStep, h, groupPairs, pairsOf, ih]
      | jobj o => simp [groupStep, h, groupPairs, pairsOf, ih]
    | jnull => simp [groupStep, groupPairs, pairsOf, ih]
    | jbool b => simp [groupStep, groupPairs, pairsOf, ih]
    | jnum n => simp [groupStep, groupPairs, pairsOf, ih]
    | jstr s => simp [groupStep, groupPairs, pairsOf, ih]
    | jarr a => simp [groupStep, groupPairs, pairsOf, ih]

theorem groupFold_snd (gs : List (String × JValue))
    (gm : List (String × String)) (l : List LogEvent) :
    (gs.foldl groupStep (gm, l)).2 = l ++ groupWarnings gs := by
  induction gs generalizing gm l with
  | nil => simp [groupWarnings]
  | cons kv rest ih =>
    obtain ⟨g, v⟩ := kv
    cases v with
    | jobj ge =>
      cases h : objValue (objOf ge) "instances" with
      | jarr arr => simp [groupStep, h, groupWarnings, ih]
      | jnull => simp [groupStep, h, groupWarnings, ih]
      | jbool b => simp [groupStep, h, groupWarnings, ih]
      | jnum n => simp [groupStep, h, groupWarnings, ih]
      | jstr s => simp [groupStep, h, groupWarnings, ih]
      | jobj o => simp [groupStep, h, groupWarnings, ih]
    | jnull => simp [groupStep, groupWarnings, ih]
    | jbool b => simp [groupStep, groupWarnings, ih]
    | jnum n => simp [groupStep, groupWarnings, ih]
    | jstr s => simp [groupStep, groupWarnings, ih]
    | jarr a => simp [groupStep, groupWarnings, ih]

theorem loadGroupList_mkGroupFile (gs : List (String × JValue)) :
    InstanceList.loadGroupList (GroupFile.parsed (mkGroupFile gs)) [] =
      (objOf gs).foldl groupStep ([], []) := rfl

/-- Lookup in the map `loadGroupList` builds from a version-1 file equals
a last-write-wins scan of the pairs in processing order, where processing
order iterates the groups object sorted by key. -/
theorem loadGroupList_lookup (gs : List (String × JValue)) (k : String) :
    mapLookup (InstanceList.loadGroupList (GroupFile.parsed (mkGroupFile gs)) []).1 k =
      lastAssoc (groupPairs (objOf gs)) k := by
  rw [loadGroupList_mkGroupFile, groupFold_fst, mapLookup_foldl_insert]
  cases lastAssoc (groupPairs (objOf gs)) k with
  | none => rfl
  | some g => rfl

theorem mem_objInsert (es : List (String × JValue)) (k : String) (v : JValue)
    (kv : String × JValue) (h : kv ∈ objInsert es k v) :
    kv = (k, v) ∨ kv ∈ es := by
  induction es with
  | nil => simpa [objInsert] using h
  | cons p rest ih =>
    obtain ⟨a, b⟩ := p
    simp only [objInsert] at h
    by_cases h1 : strLt k a = true
    · rw [if_pos h1] at h
      rcases List.mem_cons.mp h with h | h
      · exact Or.inl h
      · exact Or.inr h
    · rw [if_neg h1] at h
      by_cases h2 : k = a
      · rw [if_pos h2] at h
        rcases List.mem_cons.mp h with h | h
        · exact Or.inl h
        · exact Or.inr (List.mem_cons_of_mem _ h)
      · rw [if_neg h2] at h
        rcases List.mem_cons.mp h with h | h
        · exact Or.inr (by simp [h])
        · rcases ih h with h3 | h3
          · exact Or.inl h3
          · exact Or.inr (List.mem_cons_of_mem _ h3)

theorem mem_objOf (es : List (String × JValue)) (kv : String × JValue)
    (h : kv ∈ objOf es) : kv ∈ es := by
  suffices haux : ∀ acc, kv ∈ es.foldl (fun acc kv => objInsert acc kv.1 kv.2) acc →
      kv ∈ acc ∨ kv ∈ es by
    rcases haux [] h with hc | hc
    · simp at hc
    · exact hc
  clear h
  induction es with
  | nil => intro acc h; exact Or.inl h
  | cons p rest ih =>
    intro acc h
    rcases ih (objInsert acc p.1 p.2) h with hc | hc
    · rcases mem_objInsert acc p.1 p.2 kv hc with hc | hc
      · exact Or.inr (by simp [hc])
      · exact Or.inl hc
    · exact Or.inr (List.mem_cons_of_mem _ hc)

theorem groupWarnings_eq_nil (gs : List (String × JValue))
    (h : ∀ kv ∈ gs, wellFormedGroup kv.2 = true) :
    groupWarnings gs = [] := by
  induction gs with
  | nil => rfl
  | cons kv rest ih =>
    have hkv := h kv (by simp)
    have hrest := ih (fun p hp => h p (List.mem_cons_of_mem _ hp))
    obtain ⟨g, v⟩ := kv
    cases v with
    | jobj ge =>
      cases harr : objValue (objOf ge) "instances" with
      | jarr arr => simp [groupWarnings, harr, hrest]
      | jnull => simp [wellFormedGroup, harr, isJArr] at hkv
      | jbool b => simp [wellFormedGroup, harr, isJArr] at hkv
      | jnum n => simp [wellFormedGroup, harr, isJArr] at hkv
      | jstr s => simp [wellFormedGroup, harr, isJArr] at hkv
      | jobj o => simp [wellFormedGroup, harr, isJArr] at hkv
    | jnull => simp [wellFormedGroup] at hkv
    | jbool b => simp [wellFormedGroup] at hkv
    | jnum n => simp [wellFormedGroup] at hkv
    | jstr s => simp [wellFormedGroup] at hkv
    | jarr a => simp [wellFormedGroup] at hkv

/-! ### Scan-fold lemmas -/

theorem loadStep_insts (gm : List (String × String)) (acc : LoadAcc)
    (c : Candidate) :
    (loadStep gm acc c).insts =
      acc.insts ++
        (if c.hasMarker then
          match c.loadResult with
          | (InstanceLoader.InstLoadError.UnknownLoadError, _) => []
          | (_, none) => []
          | (_, some i) => [applyGroup gm i]
         else []) := by
  obtain ⟨d, hm, lr⟩ := c
  obtain ⟨err, inst⟩ := lr
  cases hm with
  | false => simp [loadStep]
  | true => cases err <;> cases inst <;> simp [loadStep]

theorem foldl_loadStep_insts (gm : List (String × String))
    (cs : List Candidate) (acc : LoadAcc) :
    (cs.foldl (loadStep gm) acc).insts = acc.insts ++ scannedInstances gm cs := by
  induction cs generalizing acc with
  | nil => simp [scannedInstances]
  | cons c rest ih =>
    simp only [List.foldl_cons, ih, scannedInstances, loadStep_insts,
      List.append_assoc]

theorem loadStep_invoked (gm : List (String × String)) (acc : LoadAcc)
    (c : Candidate) :
    (loadStep gm acc c).invoked =
      acc.invoked ++ (if c.hasMarker then [c.dir] else []) := by
  obtain ⟨d, hm, lr⟩ := c
  obtain ⟨err, inst⟩ := lr
  cases hm with
  | false => simp [loadStep]
  | true => cases err <;> cases inst <;> simp [loadStep]

theorem foldl_loadStep_invoked (gm : List (String × String))
    (cs : List Candidate) (acc : LoadAcc) :
    (cs.foldl (loadStep gm) acc).invoked =
      acc.invoked ++ (cs.filter (fun c => c.hasMarker)).map (fun c => c.dir) := by
  induction cs generalizing acc with
  | nil => simp
  | cons c rest ih =>
    simp only [List.foldl_cons, ih, loadStep_invoked]
    by_cases h : c.hasMarker <;> simp [h, List.filter_cons, List.append_assoc]

/-- When the loader stores an instance only on `NoLoadError` (the gateway
contract the spec describes), the scan appends exactly the accepted
candidates. -/
theorem scanned_eq_accepted (gm : List (String × String)) (cs : List Candidate)
    (hc : ∀ c ∈ cs,
      c.loadResult.1 ≠ InstanceLoader.InstLoadError.NoLoadError →
        c.loadResult.2 = none) :
    scannedInstances gm cs = acceptedInstances gm cs := by
  induction cs with
  | nil => rfl
  | cons c rest ih =>
    have hrest := ih (fun p hp => hc p (List.mem_cons_of_mem _ hp))
    have hhead := hc c (by simp)
    obtain ⟨d, hm, lr⟩ := c
    obtain ⟨err, inst⟩ := lr
    cases err <;> cases inst <;>
      simp_all [scannedInstances, acceptedInstances]

theorem acceptedInstances_length (gm : List (String × String))
    (cs : List Candidate) :
    (acceptedInstances gm cs).length =
      (cs.filter (fun c => c.hasMarker && acceptedCandidate c)).length := by
  induction cs with
  | nil => rfl
  | cons c rest ih =>
    obtain ⟨d, hm, lr⟩ := c
    obtain ⟨err, inst⟩ := lr
    cases hm <;> cases err <;> cases inst <;>
      simp [acceptedInstances, acceptedCandidate, List.filter_cons, ih]



/-! ### Claim theorems -/

/-- C1: the claim says `getInstanceById` returns the first matching instance
or an explicit "not found" result, including on an empty collection, and
never an undefined value.  On an empty collection the source instead
evaluates `inst->id()` on the still-null `InstancePtr` declared at line 210
— a null-pointer dereference with no defined result, which the embedding
reports as the outer `none`.  This theorem evaluates the code at that
failing input (a freshly constructed, empty list, any identifier). -/
theorem getInstanceById_empty_null_deref (instId : String) :
    InstanceList.getInstanceById (InstanceList.construct "any") instId = none :=
  rfl

/-- C2 counterexample: the claim states that a `NotAnInstance` outcome is
skipped without being added, for every candidate processed by `loadList`.
A candidate whose loader result is `NotAnInstance` paired with a non-null
instance falls through `error != NoLoadError && error != NotAnInstance`
(false) and `!instPtr` (false) into the success branch and is appended. -/
theorem loadList_notAnInstance_nonnull_appended :
    (InstanceList.loadList GroupFile.absent
      [{ dir := "instances/foo", hasMarker := true,
         loadResult := (InstanceLoader.InstLoadError.NotAnInstance,
           some { id := "foo", name := "Foo", group := "" }) }]
      (InstanceList.construct "ignored")).state.m_instances
      = [{ id := "foo", name := "Foo", group := "" }] := by decide

/-- C2 (amended): the per-candidate classification of `loadList`
(lines 142-186) for a candidate carrying the marker file:
`NoLoadError` with a non-null instance is appended (group applied);
`NotAnInstance` with a null instance is skipped without being added (the
only log is the debug-level "returned null" message naming the candidate
directory's base name);
`NotAnInstance` with a non-null instance is appended like a success;
`UnknownLoadError` is logged naming the candidate directory's base name and
skipped; `NoLoadError` with a null instance is logged naming the candidate
directory's base name and skipped; and in every case the scan continues
with the remaining candidates. -/
theorem loadStep_classification (gm : List (String × String)) (acc : LoadAcc)
    (c : Candidate) (h : c.hasMarker = true) :
    (c.loadResult.1 = InstanceLoader.InstLoadError.NoLoadError →
      ∀ i, c.loadResult.2 = some i →
        (loadStep gm acc c).insts = acc.insts ++ [applyGroup gm i])
    ∧ (c.loadResult.1 = InstanceLoader.InstLoadError.NotAnInstance →
        c.loadResult.2 = none →
        (loadStep gm acc c).insts = acc.insts
        ∧ (loadStep gm acc c).logs
            = acc.logs ++ [LogEvent.debugLoaderNull (baseName c.dir)])
    ∧ (c.loadResult.1 = InstanceLoader.InstLoadError.NotAnInstance →
        ∀ i, c.loadResult.2 = some i →
        (loadStep gm acc c).insts = acc.insts ++ [applyGroup gm i])
    ∧ (c.loadResult.1 = InstanceLoader.InstLoadError.UnknownLoadError →
        (loadStep gm acc c).insts = acc.insts
        ∧ (loadStep gm acc c).logs
            = acc.logs ++ [LogEvent.debugFailedToLoad (baseName c.dir)])
    ∧ (c.loadResult.1 = InstanceLoader.InstLoadError.NoLoadError →
        c.loadResult.2 = none →
        (loadStep gm acc c).insts = acc.insts
        ∧ (loadStep gm acc c).logs
            = acc.logs ++ [LogEvent.debugLoaderNull (baseName c.dir)])
    ∧ (∀ rest : List Candidate,
        List.foldl (loadStep gm) acc (c :: rest)
          = List.foldl (loadStep gm) (loadStep gm acc c) rest) := by
  obtain ⟨d, hm, lr⟩ := c
  obtain ⟨err, inst⟩ := lr
  simp only at h
  subst h
  refine ⟨?_, ?_, ?_, ?_, ?_, fun rest => rfl⟩
  · rintro h1 i h2
    simp only at h1 h2
    subst h1; subst h2
    simp [loadStep]
  · rintro h1 h2
    simp only at h1 h2
    subst h1; subst h2
    simp [loadStep]
  · rintro h1 i h2
    simp only at h1 h2
    subst h1; subst h2
    simp [loadStep]
  · rintro h1
    simp only at h1
    subst h1
    cases inst <;> simp [loadStep]
  · rintro h1 h2
    simp only at h1 h2
    subst h1; subst h2
    simp [loadStep]

/-- C2 witness: the amended classification applied to a concrete accepted
candidate. -/
theorem loadStep_classification_witness :
    (loadStep [] { insts := [], logs := [], invoked := [] }
        { dir := "instances/a", hasMarker := true,
          loadResult := (InstanceLoader.InstLoadError.NoLoadError,
            some { id := "a", name := "A", group := "" }) }).insts
      = [{ id := "a", name := "A", group := "" }] :=
  ((loadStep_classification []
      { insts := [], logs := [], invoked := [] }
      { dir := "instances/a", hasMarker := true,
        loadResult := (InstanceLoader.InstLoadError.NoLoadError,
          some { id := "a", name := "A", group := "" }) } rfl).1
    rfl { id := "a", name := "A", group := "" } rfl).trans (by decide)

/-- C3: with the loader contract modelled from the spec (an instance is
stored only on an `Ok` outcome), `loadList` produces exactly the accepted
instances in acceptance order, the collection size equals the number of
marker-bearing candidates the loader accepted, and the loader is invoked
exactly on the marker-bearing candidates (children without the marker file
are skipped beforehand). -/
theorem loadList_accepted_count_order (file : GroupFile) (cs : List Candidate)
    (s : InstanceList)
    (hc : ∀ c ∈ cs,
      c.loadResult.1 ≠ InstanceLoader.InstLoadError.NoLoadError →
        c.loadResult.2 = none) :
    (InstanceList.loadList file cs s).state.m_instances
        = acceptedInstances (InstanceList.loadGroupList file []).1 cs
    ∧ (InstanceList.loadList file cs s).state.m_instances.length
        = (cs.filter (fun c => c.hasMarker && acceptedCandidate c)).length
    ∧ (InstanceList.loadList file cs s).invoked
        = (cs.filter (fun c => c.hasMarker)).map (fun c => c.dir) := by
  have h1 : (InstanceList.loadList file cs s).state.m_instances
      = scannedInstances (InstanceList.loadGroupList file []).1 cs := by
    simp [InstanceList.loadList, foldl_loadStep_insts]
  have h2 := scanned_eq_accepted (InstanceList.loadGroupList file []).1 cs hc
  refine ⟨h1.trans h2, ?_, ?_⟩
  · rw [h1, h2, acceptedInstances_length]
  · simp [InstanceList.loadList, foldl_loadStep_invoked]

/-- Concrete scan for the C3 witness: three children, two with the marker
file, one of those accepted by the loader. -/
def exampleCandidates : List Candidate :=
  [{ dir := "instances/a", hasMarker := true,
     loadResult := (InstanceLoader.InstLoadError.NoLoadError,
       some { id := "a", name := "A", group := "" }) },
   { dir := "instances/notes.txt", hasMarker := false,
     loadResult := (InstanceLoader.InstLoadError.NotAnInstance, none) },
   { dir := "instances/c", hasMarker := true,
     loadResult := (InstanceLoader.InstLoadError.NotAnInstance, none) }]

/-- C3 witness: the theorem evaluated on `exampleCandidates` — one accepted
instance, and the loader invoked only on the two marker-bearing children. -/
theorem loadList_accepted_count_order_witness :
    (InstanceList.loadList GroupFile.absent exampleCandidates
        (InstanceList.construct "d")).state.m_instances
      = [{ id := "a", name := "A", group := "" }]
    ∧ (InstanceList.loadList GroupFile.absent exampleCandidates
        (InstanceList.construct "d")).invoked
      = ["instances/a", "instances/c"] := by
  have h := loadList_accepted_count_order GroupFile.absent exampleCandidates
    (InstanceList.construct "d") (by decide)
  exact ⟨h.1.trans (by decide), h.2.2.trans (by decide)⟩

/-- A version-1 group file holding a single group `g` whose `instances`
array is `arr`. -/
def singleGroupFile (g : String) (arr : List JValue) : JValue :=
  mkGroupFile [(g, JValue.jobj [("instances", JValue.jarr arr)])]

/-- C4 counterexample: the claim says non-string entries of a group's
`instances` array are ignored (no mapping entry created).  Parsing a group
`G` with entries `["a", 5]` yields a map with an entry under the empty
string (`QJsonValue::toString()` of the number is the null `QString`), not
just the entry for `"a"`. -/
theorem loadGroupList_nonstring_entry_recorded :
    (InstanceList.loadGroupList
        (GroupFile.parsed (singleGroupFile "G" [JValue.jstr "a", JValue.jnum 5]))
        []).1
      = [("", "G"), ("a", "G")] := by decide

/-- C4 (amended): every entry of a well-formed group's `instances` array —
string or not — is written into the mapping under `toString()` of the
entry, which is the string itself for string entries and the null string
(`""`) for every non-string entry; nothing else is written. -/
theorem loadGroupList_records_toString_entries (g : String) (arr : List JValue) :
    (∀ k, mapLookup
        (InstanceList.loadGroupList (GroupFile.parsed (singleGroupFile g arr)) []).1 k
        = lastAssoc (arr.map (fun v => (jvalToString v, g))) k)
    ∧ (∀ v : JValue, isJStr v = false → jvalToString v = "") := by
  constructor
  · intro k
    simp only [singleGroupFile]
    rw [loadGroupList_lookup]
    have hpairs :
        groupPairs (objOf [(g, JValue.jobj [("instances", JValue.jarr arr)])])
          = arr.map (fun v => (jvalToString v, g)) ++ [] := rfl
    rw [hpairs, List.append_nil]
  · intro v hv
    cases v <;> simp_all [isJStr, jvalToString]

/-- C4 witness: string entry `"a"` of group `G` is found under `"a"`. -/
theorem loadGroupList_records_toString_entries_witness :
    mapLookup
      (InstanceList.loadGroupList
        (GroupFile.parsed (singleGroupFile "G" [JValue.jstr "a", JValue.jnum 5]))
        []).1 "a"
      = some "G" :=
  ((loadGroupList_records_toString_entries "G"
      [JValue.jstr "a", JValue.jnum 5]).1 "a").trans (by decide)

/-- A version-1 group file with one malformed group (`"Broken"`, value
`mv`, not well-formed) and one well-formed group (`"Good"`). -/
def mixedGroupFile (mv : JValue) (arr : List JValue) : JValue :=
  mkGroupFile [("Broken", mv),
               ("Good", JValue.jobj [("instances", JValue.jarr arr)])]

/-- C5: a malformed per-group entry (value not an object, or no `instances`
array) contributes nothing to the mapping and only its own warning, while
the well-formed group is still processed in full: the resulting mapping is
exactly the well-formed group's entries. -/
theorem loadGroupList_skips_malformed_group (mv : JValue) (arr : List JValue)
    (hmv : wellFormedGroup mv = false) :
    (∀ k, mapLookup
        (InstanceList.loadGroupList (GroupFile.parsed (mixedGroupFile mv arr)) []).1 k
        = lastAssoc (arr.map (fun v => (jvalToString v, "Good"))) k)
    ∧ (InstanceList.loadGroupList (GroupFile.parsed (mixedGroupFile mv arr)) []).2
        = (if isJObj mv then [LogEvent.warnGroupNoInstances "Broken"]
           else [LogEvent.warnGroupNotObject "Broken"]) := by
  have hbroken : pairsOf ("Broken", mv) = [] := by
    cases mv with
    | jobj ge =>
      cases harr : objValue (objOf ge) "instances" <;>
        simp_all [pairsOf, wellFormedGroup, isJArr]
    | jnull => rfl
    | jbool b => rfl
    | jnum n => rfl
    | jstr s => rfl
    | jarr a => rfl
  constructor
  · intro k
    simp only [mixedGroupFile]
    rw [loadGroupList_lookup]
    have hpairs :
        groupPairs (objOf [("Broken", mv),
            ("Good", JValue.jobj [("instances", JValue.jarr arr)])])
          = pairsOf ("Broken", mv)
            ++ (arr.map (fun v => (jvalToString v, "Good")) ++ []) := rfl
    rw [hpairs, hbroken, List.append_nil, List.nil_append]
  · simp only [mixedGroupFile]
    rw [loadGroupList_mkGroupFile, groupFold_snd]
    have hwarn :
        groupWarnings (objOf [("Broken", mv),
            ("Good", JValue.jobj [("instances", JValue.jarr arr)])])
          = (match mv with
             | JValue.jobj ge =>
               match objValue (objOf ge) "instances" with
               | JValue.jarr _ => []
               | _ => [LogEvent.warnGroupNoInstances "Broken"]
             | _ => [LogEvent.warnGroupNotObject "Broken"]) ++ ([] ++ []) := rfl
    rw [hwarn]
    cases mv with
    | jobj ge =>
      cases harr : objValue (objOf ge) "instances" <;>
        simp_all [wellFormedGroup, isJArr, isJObj]
    | jnull => rfl
    | jbool b => rfl
    | jnum n => rfl
    | jstr s => rfl
    | jarr a => rfl

/-- C5 witness: a file with one group lacking an `instances` array and one
well-formed group maps `"x"` to the well-formed group. -/
theorem loadGroupList_skips_malformed_group_witness :
    mapLookup
      (InstanceList.loadGroupList
        (GroupFile.parsed (mixedGroupFile (JValue.jobj []) [JValue.jstr "x"]))
        []).1 "x"
      = some "Good" :=
  ((loadGroupList_skips_malformed_group (JValue.jobj []) [JValue.jstr "x"]
      (by decide)).1 "x").trans (by decide)

/-- A file declaring, in file order, group `"B"` then group `"A"`, both
containing the instance id `"x"`. -/
def dupIdFile : JValue :=
  mkGroupFile [("B", JValue.jobj [("instances", JValue.jarr [JValue.jstr "x"])]),
               ("A", JValue.jobj [("instances", JValue.jarr [JValue.jstr "x"])])]

/-- C6 counterexample: the claim says the last occurrence in file order
wins for a duplicated instance id.  In `dupIdFile` the last occurrence of
`"x"` in file order lies in group `"A"` (declared second), but the
`QJsonObject` iterates its groups sorted by key — `"A"` before `"B"` — so
the write for `"B"` happens last and wins. -/
theorem loadGroupList_duplicate_id_sorted_wins :
    mapLookup
      (InstanceList.loadGroupList (GroupFile.parsed dupIdFile) []).1 "x"
      = some "B" := by decide

/-- C6 (amended): for a version-1 file whose groups are all well formed the
mapping contains exactly the declared `(instanceId, groupName)` pairs and
no warning is logged; on a duplicated instance id the winner is the last
write in processing order, where groups are processed in ascending group
name order (the groups object iterates sorted by key) and entries within a
group's `instances` array in array order. -/
theorem loadGroupList_exact_pairs_last_wins (gs : List (String × JValue))
    (hwf : ∀ kv ∈ gs, wellFormedGroup kv.2 = true) (k : String) :
    mapLookup
        (InstanceList.loadGroupList (GroupFile.parsed (mkGroupFile gs)) []).1 k
        = lastAssoc (groupPairs (objOf gs)) k
    ∧ (InstanceList.loadGroupList (GroupFile.parsed (mkGroupFile gs)) []).2
        = [] := by
  refine ⟨loadGroupList_lookup gs k, ?_⟩
  rw [loadGroupList_mkGroupFile, groupFold_snd,
    groupWarnings_eq_nil (objOf gs) (fun kv hkv => hwf kv (mem_objOf gs kv hkv))]
  rfl

/-- C6 witness: a single well-formed group `"A"` declaring `"x"` maps `"x"`
to `"A"`. -/
theorem loadGroupList_exact_pairs_last_wins_witness :
    mapLookup
      (InstanceList.loadGroupList
        (GroupFile.parsed (mkGroupFile
          [("A", JValue.jobj [("instances", JValue.jarr [JValue.jstr "x"])])]))
        []).1 "x"
      = some "A" :=
  ((loadGroupList_exact_pairs_last_wins
      [("A", JValue.jobj [("instances", JValue.jarr [JValue.jstr "x"])])]
      (by decide) "x").1).trans (by decide)

/-- C7 counterexample: the claim says a declared format version different
from 1 yields an empty mapping and a logged warning.  The source's version
check (lines 83-84) returns without logging anything: the result is the
empty mapping with an empty log. -/
theorem loadGroupList_version_mismatch_silent :
    InstanceList.loadGroupList
        (GroupFile.parsed (JValue.jobj [("formatVersion", JValue.jnum 2)])) []
      = ([], []) := by decide

/-- C7 (amended): the parser never fails its caller.  A non-object root
yields the empty mapping plus a warning; a version mismatch yields the
empty mapping silently (no log); a missing or non-object `groups` field
yields the empty mapping plus a warning; a missing file yields the empty
mapping with no log. -/
theorem loadGroupList_degrades_to_empty :
    (∀ v : JValue, isJObj v = false →
        InstanceList.loadGroupList (GroupFile.parsed v) []
          = ([], [LogEvent.warnRootNotObject]))
    ∧ (∀ es : List (String × JValue),
        toVariantInt (objValue (objOf es) "formatVersion") ≠ 1 →
        InstanceList.loadGroupList (GroupFile.parsed (JValue.jobj es)) []
          = ([], []))
    ∧ (∀ es : List (String × JValue),
        toVariantInt (objValue (objOf es) "formatVersion") = 1 →
        isJObj (objValue (objOf es) "groups") = false →
        InstanceList.loadGroupList (GroupFile.parsed (JValue.jobj es)) []
          = ([], [LogEvent.warnGroupsNotObject]))
    ∧ InstanceList.loadGroupList GroupFile.absent [] = ([], []) := by
  refine ⟨?_, ?_, ?_, rfl⟩
  · intro v hv
    cases v <;> simp_all [InstanceList.loadGroupList, isJObj]
  · intro es h
    simp only [InstanceList.loadGroupList]
    rw [if_pos h]
  · intro es h1 h2
    simp only [InstanceList.loadGroupList]
    rw [if_neg (by simp [h1])]
    cases hg : objValue (objOf es) "groups" <;> simp_all [isJObj]

/-- C7 witness: a string root degrades to an empty mapping plus the
root-warning; an empty root object (version absent, hence 0) degrades to an
empty mapping silently. -/
theorem loadGroupList_degrades_to_empty_witness :
    InstanceList.loadGroupList (GroupFile.parsed (JValue.jstr "oops")) []
      = ([], [LogEvent.warnRootNotObject])
    ∧ InstanceList.loadGroupList (GroupFile.parsed (JValue.jobj [])) []
      = ([], []) :=
  ⟨loadGroupList_degrades_to_empty.1 (JValue.jstr "oops") rfl,
   loadGroupList_degrades_to_empty.2.1 [] (by decide)⟩

/-- C8: `add` appends the instance at the end, emits exactly one
`instanceAdded` event whose index is `count() - 1` evaluated after the
append — the index of the newly appended element, i.e. the old length —
and returns that same index. -/
theorem add_appends_emits_index (s : InstanceList) (t : Instance) :
    (InstanceList.add s t).1.m_instances = s.m_instances ++ [t]
    ∧ (InstanceList.add s t).2.1
        = [Event.instanceAdded ((InstanceList.add s t).1.m_instances.length - 1)]
    ∧ (InstanceList.add s t).2.2
        = (InstanceList.add s t).1.m_instances.length - 1
    ∧ (InstanceList.add s t).1.m_instances.length - 1 = s.m_instances.length := by
  refine ⟨rfl, rfl, rfl, ?_⟩
  simp [InstanceList.add]

/-- C9: a second `loadList` call fully replaces the collection: its whole
result is the same as if it had run on the pre-first-load state, and the
resulting collection is exactly what the second scan discovers — no
instance from the first load survives unless rediscovered by the second
scan. -/
theorem loadList_replaces_contents (f1 f2 : GroupFile)
    (cs1 cs2 : List Candidate) (s : InstanceList) :
    InstanceList.loadList f2 cs2 (InstanceList.loadList f1 cs1 s).state
      = InstanceList.loadList f2 cs2 s
    ∧ (InstanceList.loadList f2 cs2
        (InstanceList.loadList f1 cs1 s).state).state.m_instances
      = scannedInstances (InstanceList.loadGroupList f2 []).1 cs2 := by
  constructor
  · rfl
  · simp [InstanceList.loadList, foldl_loadStep_insts]

/-- C10: the constructor ignores its `instDir` argument — any two
constructor arguments produce identical objects whose root directory is the
fixed relative path `"instances"` — so `loadList` and `loadGroupList`, run
against any one filesystem, behave identically for any two constructor
arguments. -/
theorem constructor_ignores_instDir (d1 d2 : String) :
    InstanceList.construct d1 = InstanceList.construct d2
    ∧ (InstanceList.construct d1).m_instDir = "instances"
    ∧ InstanceList.groupFileName (InstanceList.construct d1)
        = "instances/instgroups.json"
    ∧ (∀ (fs : String → GroupFile) (listing : String → List Candidate),
        InstanceList.loadListFS fs listing (InstanceList.construct d1)
          = InstanceList.loadListFS fs listing (InstanceList.construct d2))
    ∧ (∀ (fs : String → GroupFile) (gm : List (String × String)),
        InstanceList.loadGroupListFS fs (InstanceList.construct d1) gm
          = InstanceList.loadGroupListFS fs (InstanceList.construct d2) gm) :=
  ⟨rfl, rfl, rfl, fun _ _ => rfl, fun _ _ => rfl⟩
